import Mathlib

/-!
Verification of the startrail Terraform provider's mapping layer.

The development shallowly embeds the provider package:
* the diagnostics translation `handleStartrailDiagnostics`;
* the Terraform-side data model (`ServiceModel` and its nested blocks) and the
  remote domain model (`bindings.Service` et al.);
* the to-domain mapping performed by `ServiceResource.post` (factored here into
  `postService`, the construction of the `bindings.Service` document) and the
  from-domain mapping `parseServiceResponse`;
* the lifecycle adapters `Create`/`Read`/`Update`/`Delete`, with the remote
  client abstracted as a function from the request to an outcome;
* the provider `Configure` credential resolution and tenant defaulting.

Go maps are modelled as association lists over `String` keys; a Go map
assignment `m[k] = v` is `alistInsert` (replace in place, append when absent),
so iteration order is deterministic here while the Go order is arbitrary—all
order-sensitive statements below are phrased up to the keyed (map) view.
Terraform `types.String`/`types.Bool` values are modelled by their known
values (`ValueString`/`ValueBool` semantics); the zero value of a model is
`ServiceModel.empty`.
-/

/-! ## Association lists (Go `map[string]T`) -/

/-- Go map assignment `m[k] = v`: replace the binding in place if the key is
present, append otherwise. -/
def alistInsert {α : Type} : List (String × α) → String → α → List (String × α)
  | [], k, v => [(k, v)]
  | (k0, v0) :: rest, k, v =>
    if k0 = k then (k, v) :: rest else (k0, v0) :: alistInsert rest k v

/-- Go map read `m[k]`. -/
def alistLookup {α : Type} : List (String × α) → String → Option α
  | [], _ => none
  | (k0, v0) :: rest, k => if k = k0 then some v0 else alistLookup rest k

/-- The keys of an association list. -/
def alistKeys {α : Type} (m : List (String × α)) : List String :=
  m.map Prod.fst

/-- Inserting every binding of `l` into `m`, in order. -/
def insertAllPairs {α : Type} (m : List (String × α)) (l : List (String × α)) :
    List (String × α) :=
  l.foldl (fun acc kv => alistInsert acc kv.1 kv.2) m

/-! ## Diagnostics translation -/

/-- `bindings.Diagnostic`: one remote diagnostic item. -/
structure Diagnostic where
  severity : String
  summary : String
  detail : String
deriving DecidableEq, Repr

/-- One entry of the framework's `diag.Diagnostics`: `AddError` appends an
`error`, `AddWarning` appends a `warning`. -/
inductive TFDiag where
  | error (summary detail : String)
  | warning (summary detail : String)
deriving DecidableEq, Repr

/-- The first condition of `handleStartrailDiagnostics`:
`d.Severity == "error" || d.Severity == "Error"`. -/
def isErrorSeverity (d : Diagnostic) : Bool :=
  d.severity == "error" || d.severity == "Error"

/-- The second condition of `handleStartrailDiagnostics`:
`d.Severity == "warning" || d.Severity == "Warning"`. -/
def isWarningSeverity (d : Diagnostic) : Bool :=
  d.severity == "warning" || d.severity == "Warning"

/-- `handleStartrailDiagnostics`: translate remote diagnostics item by item,
appending to the caller's diagnostics; items of any other severity are
skipped. -/
def handleStartrailDiagnostics : List Diagnostic → List TFDiag → List TFDiag
  | [], diags => diags
  | d :: rest, diags =>
    if isErrorSeverity d then
      handleStartrailDiagnostics rest (diags ++ [TFDiag.error d.summary d.detail])
    else if isWarningSeverity d then
      handleStartrailDiagnostics rest (diags ++ [TFDiag.warning d.summary d.detail])
    else
      handleStartrailDiagnostics rest diags

/-- `diag.Diagnostics.HasError()`. -/
def diagsHasError : List TFDiag → Bool
  | [] => false
  | TFDiag.error _ _ :: _ => true
  | TFDiag.warning _ _ :: rest => diagsHasError rest

/-- The (summary, detail) pairs of the error entries, in order. -/
def errorsOf : List TFDiag → List (String × String)
  | [] => []
  | TFDiag.error s d :: rest => (s, d) :: errorsOf rest
  | TFDiag.warning _ _ :: rest => errorsOf rest

/-- The (summary, detail) pairs of the warning entries, in order. -/
def warningsOf : List TFDiag → List (String × String)
  | [] => []
  | TFDiag.error _ _ :: rest => warningsOf rest
  | TFDiag.warning s d :: rest => (s, d) :: warningsOf rest

/-! ## Remote domain model (`startrail-go-sdk` bindings) -/

/-- `bindings.Access`. -/
structure Access where
  auth : Bool
  endpoint : String
  internal : Bool
deriving DecidableEq, Repr

/-- `bindings.Logging`: a labels map. -/
structure Logging where
  labels : List (String × String)
deriving DecidableEq, Repr

/-- `bindings.Source`: a labels map. -/
structure Source where
  labels : List (String × String)
deriving DecidableEq, Repr

/-- `bindings.Metadata`: an optional labels map (`GetLabels` may be nil,
modelled as `none`). -/
structure Metadata where
  labels : Option (List (String × String))
deriving DecidableEq, Repr

/-- `bindings.Service`: the wire document. `disabled` is `*bool`;
`metadata` is `NullableMetadata` (unset modelled as `none`); `logging` and
`sources` are Go maps keyed by the source name. -/
structure Service where
  name : String
  description : String
  remarks : String
  environment : String
  tenant : String
  disabled : Option Bool
  access : List Access
  metadata : Option Metadata
  logging : List (String × Logging)
  sources : List (String × Source)
deriving DecidableEq, Repr

/-- `bindings.ServiceResponse`: diagnostics plus the echoed service document
(`GetDiagnostics` / `GetResponse`). -/
structure ServiceResponse where
  diagnostics : List Diagnostic
  response : Service
deriving DecidableEq, Repr

/-! ## Terraform-side model -/

/-- `ServiceResourceModelAccess`. -/
structure ServiceResourceModelAccess where
  auth : Bool
  endpoint : String
  internal : Bool
deriving DecidableEq, Repr

/-- `ServiceResourceModelLogging`: a labels map attribute and the `source`
discriminator attribute. -/
structure ServiceResourceModelLogging where
  labels : List (String × String)
  source : String
deriving DecidableEq, Repr

/-- `ServiceResourceM0delSource` (name as in the Go source). -/
structure ServiceResourceM0delSource where
  labels : List (String × String)
  source : String
deriving DecidableEq, Repr

/-- `ServiceResourceModelMetadata`. -/
structure ServiceResourceModelMetadata where
  labels : List (String × String)
deriving DecidableEq, Repr

/-- `ServiceModel`: the resource/data-source state model. Field order follows
the Go struct. -/
structure ServiceModel where
  id : String
  access : List ServiceResourceModelAccess
  description : String
  disabled : Bool
  environment : String
  logging : List ServiceResourceModelLogging
  metadata : Option ServiceResourceModelMetadata
  name : String
  remarks : String
  sources : List ServiceResourceM0delSource
deriving DecidableEq, Repr

/-- `ServiceModel{}`: the Go zero value (null Terraform values read back as
empty strings / false / nil slices). -/
def ServiceModel.empty : ServiceModel :=
  ⟨"", [], "", false, "", [], none, "", "", []⟩

/-- `StartrailProviderClient` (the network client field is omitted; only the
tenant and default environment feed the mapping layer). -/
structure StartrailProviderClient where
  tenant : String
  environment : String
deriving DecidableEq, Repr

/-! ## The to-domain mapping (`ServiceResource.post`) -/

/-- The environment fallback performed at the start of `post`, `Read`,
`Delete` and the data-source `Read`:
`if environment == "" { environment = r.client.Environment }`. -/
def resolveEnvironment (client : StartrailProviderClient) (environment : String) :
    String :=
  if environment = "" then client.environment else environment

/-- The `logging` loop of `post`: build the Go map keyed by each entry's
`source` value. -/
def buildLoggingMap (entries : List ServiceResourceModelLogging) :
    List (String × Logging) :=
  entries.foldl (fun m l => alistInsert m l.source (Logging.mk l.labels)) []

/-- The `source` loop of `post`: build the Go map keyed by each entry's
`source` value. -/
def buildSourcesMap (entries : List ServiceResourceM0delSource) :
    List (String × Source) :=
  entries.foldl (fun m s => alistInsert m s.source (Source.mk s.labels)) []

/-- The `bindings.Service` document built by `ServiceResource.post` before the
remote `Create` call. Note `metadata` is the zero `NullableMetadata{}` (the
resource's metadata block is never copied in). -/
def postService (client : StartrailProviderClient) (data : ServiceModel) :
    Service :=
  ⟨data.name, data.description, data.remarks,
    resolveEnvironment client data.environment, client.tenant,
    some data.disabled,
    data.access.map (fun a => Access.mk a.auth a.endpoint a.internal),
    none,
    buildLoggingMap data.logging,
    buildSourcesMap data.sources⟩

/-! ## The from-domain mapping (`parseServiceResponse`) -/

/-- `parseServiceResponse`: translate the response document back into the
Terraform model. The `types.MapValue` diagnostics can only signal type
mismatches, which cannot arise here, so they are omitted. -/
def parseServiceResponse (startrailResponse : ServiceResponse) : ServiceModel :=
  let s := startrailResponse.response
  let tfLogging := s.logging.map
    (fun kv => ServiceResourceModelLogging.mk kv.2.labels kv.1)
  let tfSources := s.sources.map
    (fun kv => ServiceResourceM0delSource.mk kv.2.labels kv.1)
  let tfMetadata : Option ServiceResourceModelMetadata :=
    match s.metadata with
    | none => none
    | some m =>
      match m.labels with
      | none => none
      | some ls => some (ServiceResourceModelMetadata.mk ls)
  let tfAccess := s.access.map
    (fun a => ServiceResourceModelAccess.mk a.auth a.endpoint a.internal)
  ⟨s.tenant ++ "/" ++ s.environment ++ "/" ++ s.name,
    tfAccess, s.description, s.disabled.getD false, s.environment,
    tfLogging, tfMetadata, s.name, s.remarks, tfSources⟩

/-- The round trip of the claim: the document built by `post` fed back through
`parseServiceResponse` (the remote echoes the created service). -/
def roundTrip (client : StartrailProviderClient) (data : ServiceModel) :
    ServiceModel :=
  parseServiceResponse (ServiceResponse.mk [] (postService client data))

/-! ## Lifecycle adapters -/

/-- Outcome of one remote call: `Execute()` either fails with a Go error or
completes with a response, an HTTP status code, and a response body. -/
inductive ClientOutcome where
  | failure (errMsg : String)
  | completed (startrailResponse : ServiceResponse) (statusCode : Nat) (body : String)

/-- `ServiceResource.post`: build the service document, call the remote
`Create`, then translate failures, remote diagnostics and the status code in
that order; on success, parse the response. On the success path the Go code
reassigns `diags` to `parseServiceResponse`'s diagnostics, discarding earlier
warnings, hence the empty list there. -/
def ServiceResource.post (client : StartrailProviderClient) (data : ServiceModel)
    (remote : Service → ClientOutcome) : ServiceModel × List TFDiag :=
  let service := postService client data
  match remote service with
  | ClientOutcome.failure msg =>
    (ServiceModel.empty,
      [TFDiag.error "Client Error" ("Unable to update service, got error: " ++ msg)])
  | ClientOutcome.completed resp status body =>
    let diags := handleStartrailDiagnostics resp.diagnostics []
    if diagsHasError diags then
      (ServiceModel.empty, diags)
    else if status ≠ 200 then
      (ServiceModel.empty,
        diags ++ [TFDiag.error "Client Error" ("Unable to update service, got errors: " ++ body)])
    else
      (parseServiceResponse resp, [])

/-- `ServiceResource.Create`: run `post` and unconditionally write its result
to state (`resp.State.Set` has no `HasError` guard in `Create`). The first
component is the state written (`some` = a state write happened). -/
def ServiceResource.Create (client : StartrailProviderClient) (plan : ServiceModel)
    (remote : Service → ClientOutcome) : Option ServiceModel × List TFDiag :=
  let r := ServiceResource.post client plan remote
  (some r.1, r.2)

/-- `ServiceResource.Update`: run `post`, and write state only when no error
was reported. -/
def ServiceResource.Update (client : StartrailProviderClient) (plan : ServiceModel)
    (remote : Service → ClientOutcome) : Option ServiceModel × List TFDiag :=
  let r := ServiceResource.post client plan remote
  if diagsHasError r.2 then (none, r.2) else (some r.1, r.2)

/-- The (tenant, environment, name) triple of a remote `Get`/`Delete` call. -/
structure RequestTriple where
  tenant : String
  environment : String
  name : String
deriving DecidableEq, Repr

/-- The `Get` request issued by `ServiceResource.Read`. -/
def ServiceResource.readRequest (client : StartrailProviderClient)
    (data : ServiceModel) : RequestTriple :=
  ⟨client.tenant, resolveEnvironment client data.environment, data.name⟩

/-- `ServiceResource.Read`: call the remote `Get` and write the parsed
response to state unless a failure, an error diagnostic, or a non-200 status
intervenes. -/
def ServiceResource.Read (client : StartrailProviderClient) (prior : ServiceModel)
    (remote : RequestTriple → ClientOutcome) : Option ServiceModel × List TFDiag :=
  match remote (ServiceResource.readRequest client prior) with
  | ClientOutcome.failure msg =>
    (none, [TFDiag.error "Client Error" ("Unable to delete service, got error: " ++ msg)])
  | ClientOutcome.completed resp status body =>
    let diags := handleStartrailDiagnostics resp.diagnostics []
    if diagsHasError diags then
      (none, diags)
    else if status ≠ 200 then
      (none, diags ++ [TFDiag.error "Client Error" ("Unable to delete service, got error: " ++ body)])
    else
      (some (parseServiceResponse resp), diags)

/-- The `Delete` request issued by `ServiceResource.Delete`. -/
def ServiceResource.deleteRequest (client : StartrailProviderClient)
    (data : ServiceModel) : RequestTriple :=
  ⟨client.tenant, resolveEnvironment client data.environment, data.name⟩

/-- `ServiceResource.Delete`: call the remote `Delete` and translate failures,
diagnostics and the status code; no state is ever produced. -/
def ServiceResource.Delete (client : StartrailProviderClient) (prior : ServiceModel)
    (remote : RequestTriple → ClientOutcome) : List TFDiag :=
  match remote (ServiceResource.deleteRequest client prior) with
  | ClientOutcome.failure msg =>
    [TFDiag.error "Client Error" ("Unable to delete service, got error: " ++ msg)]
  | ClientOutcome.completed resp status body =>
    let diags := handleStartrailDiagnostics resp.diagnostics []
    if diagsHasError diags then
      diags
    else if status ≠ 200 then
      diags ++ [TFDiag.error "Client Error" ("Unable to delete service, got error: " ++ body)]
    else
      diags

/-- The `Get` request issued by the data source's `Read` (same environment
fallback and tenant as the resource). -/
def ServiceDataSource.readRequest (client : StartrailProviderClient)
    (data : ServiceModel) : RequestTriple :=
  ⟨client.tenant, resolveEnvironment client data.environment, data.name⟩

/-! ## Provider configuration -/

/-- The inputs `StartrailProvider.Configure` consults for credentials and
defaults: the two environment variables (empty string = unset, matching
`os.Getenv`), the nullability and value of the configured `api_key`
attribute, and the configured tenant and environment attributes. -/
structure ConfigureInputs where
  envStartrailToken : String
  envStartrailApiKey : String
  apiKeyIsNull : Bool
  apiKeyValue : String
  tenant : String
  environment : String
deriving DecidableEq, Repr

/-- Which credential path `Configure` takes: either the device-flow OAuth
branch, or a concrete `Authorization` header value. -/
inductive CredMethod where
  | deviceFlow
  | header (authorization : String)
deriving DecidableEq, Repr

/-- The credential decision of `StartrailProvider.Configure`, with Go
operator precedence preserved: the first branch's condition is
`(STARTRAIL_TOKEN == "" && STARTRAIL_API_KEY == "") || data.ApiKey.IsNull()`. -/
def resolveCredential (i : ConfigureInputs) : CredMethod :=
  if (i.envStartrailToken = "" ∧ i.envStartrailApiKey = "") ∨ i.apiKeyIsNull then
    CredMethod.deviceFlow
  else if i.envStartrailToken ≠ "" then
    CredMethod.header ("Bearer " ++ i.envStartrailToken)
  else if i.envStartrailApiKey ≠ "" then
    CredMethod.header ("apiKey " ++ i.envStartrailApiKey)
  else
    CredMethod.header ("apiKey " ++ i.apiKeyValue)

/-- The tail of `StartrailProvider.Configure`: default the tenant to
`"default"` when the configured tenant is empty, and capture the configured
environment as the provider-level default. -/
def StartrailProvider.Configure (i : ConfigureInputs) : StartrailProviderClient :=
  ⟨(if i.tenant = "" then "default" else i.tenant), i.environment⟩

/-! ## Spec-side characterizations -/

/-- Modelled from the spec's words for the collision policy: the `Logging`
value of the last list entry whose `source` equals `k`, if any. -/
def lastLoggingBinding : List ServiceResourceModelLogging → String → Option Logging
  | [], _ => none
  | e :: rest, k =>
    match lastLoggingBinding rest k with
    | some v => some v
    | none => if e.source = k then some (Logging.mk e.labels) else none

/-- Modelled from the spec's words for the collision policy: the `Source`
value of the last list entry whose `source` equals `k`, if any. -/
def lastSourceBinding : List ServiceResourceM0delSource → String → Option Source
  | [], _ => none
  | e :: rest, k =>
    match lastSourceBinding rest k with
    | some v => some v
    | none => if e.source = k then some (Source.mk e.labels) else none

/-! ## Sample inputs -/

/-- A provider client as produced by a configure with tenant `acme` and
default environment `staging`. -/
def sampleClient : StartrailProviderClient :=
  ⟨"acme", "staging"⟩

/-- A schema-valid resource model exercising every block. -/
def sampleModel : ServiceModel :=
  ⟨"", [⟨true, "https://upstream", false⟩], "a service", false, "prod",
    [⟨[("team", "core")], "app"⟩, ⟨[("lvl", "info")], "db"⟩],
    some ⟨[("owner", "sre")]⟩,
    "hello-world", "a remark",
    [⟨[("repo", "git")], "git"⟩]⟩

/-! ## C5: identifier synthesis -/

/-- C5: for every Service response, the `id` attribute is synthesized as
`tenant ++ "/" ++ environment ++ "/" ++ name`, recomputed from the response
fields (the parse takes no prior state); for tenant `acme`, environment
`prod`, name `hello-world` the id is exactly `acme/prod/hello-world`. -/
theorem parseServiceResponse_id_synthesis :
    (∀ resp : ServiceResponse,
      (parseServiceResponse resp).id =
        resp.response.tenant ++ "/" ++ resp.response.environment ++ "/" ++
          resp.response.name) ∧
    (parseServiceResponse
        (ServiceResponse.mk []
          ⟨"hello-world", "", "", "prod", "acme", none, [], none, [], []⟩)).id =
      "acme/prod/hello-world" := by
  constructor
  · intro resp
    rfl
  · rfl

/-! ## C4: environment fallback -/

/-- C4: when the resource's `environment` attribute is empty, the to-domain
mapping substitutes the provider-level default environment before the service
document is built and before the `Get`/`Delete` requests are issued. -/
theorem environment_fallback (client : StartrailProviderClient)
    (data : ServiceModel) (h : data.environment = "") :
    (postService client data).environment = client.environment ∧
    (ServiceResource.readRequest client data).environment = client.environment ∧
    (ServiceResource.deleteRequest client data).environment = client.environment := by
  refine ⟨?_, ?_, ?_⟩ <;>
    simp [postService, ServiceResource.readRequest, ServiceResource.deleteRequest,
      resolveEnvironment, h]

/-- C4 witness: with provider default environment `staging` and an empty
resource environment, the document sent to Create carries
`environment = "staging"`, as do the Get and Delete requests. -/
theorem environment_fallback_witness :
    (postService ⟨"acme", "staging"⟩ ServiceModel.empty).environment = "staging" ∧
    (ServiceResource.readRequest ⟨"acme", "staging"⟩ ServiceModel.empty).environment =
      "staging" ∧
    (ServiceResource.deleteRequest ⟨"acme", "staging"⟩ ServiceModel.empty).environment =
      "staging" :=
  environment_fallback ⟨"acme", "staging"⟩ ServiceModel.empty rfl

/-! ## C8: metadata is never copied into the outgoing document -/

/-- C8: `post` initializes the outgoing metadata to the zero
`NullableMetadata{}` and never copies the resource's metadata block, so the
service document sent to the remote Create always carries an unset metadata —
in particular for a model whose metadata block is present with labels. -/
theorem postService_metadata_always_none :
    (∀ (client : StartrailProviderClient) (data : ServiceModel),
      (postService client data).metadata = none) ∧
    (postService ⟨"acme", "staging"⟩
        ⟨"", [], "", false, "prod", [], some ⟨[("owner", "sre")]⟩, "hello-world",
          "", []⟩).metadata = none := by
  constructor
  · intro client data
    rfl
  · rfl

/-! ## C3: credential resolution order -/

/-- C3: with `STARTRAIL_TOKEN` set to `tok`, `STARTRAIL_API_KEY` unset, and a
null `api_key` attribute, `Configure` takes the device-flow branch instead of
using the bearer token: the first branch's condition
`(TOKEN == "" && API_KEY == "") || ApiKey.IsNull()` is true because of the
null attribute, pre-empting the `TOKEN != ""` branch. -/
theorem resolveCredential_device_flow_despite_env_token :
    resolveCredential ⟨"tok", "", true, "", "", ""⟩ = CredMethod.deviceFlow ∧
    resolveCredential ⟨"tok", "", true, "", "", ""⟩ ≠
      CredMethod.header ("Bearer " ++ "tok") := by
  constructor
  · rfl
  · decide

/-! ## C10: tenant defaulting -/

/-- C10: when the provider-level tenant attribute is empty at configure time
the client tenant is the literal `"default"`; the `Get`, `Create` and
`Delete` calls of the resource and the data source all carry that tenant, and
the tenant of a request does not depend on the per-resource data. -/
theorem configure_tenant_default (i : ConfigureInputs)
    (d d2 : ServiceModel) (h : i.tenant = "") :
    (StartrailProvider.Configure i).tenant = "default" ∧
    (ServiceResource.readRequest (StartrailProvider.Configure i) d).tenant =
      "default" ∧
    (postService (StartrailProvider.Configure i) d).tenant = "default" ∧
    (ServiceResource.deleteRequest (StartrailProvider.Configure i) d).tenant =
      "default" ∧
    (ServiceDataSource.readRequest (StartrailProvider.Configure i) d).tenant =
      "default" ∧
    (ServiceResource.readRequest (StartrailProvider.Configure i) d).tenant =
      (ServiceResource.readRequest (StartrailProvider.Configure i) d2).tenant := by
  refine ⟨?_, ?_, ?_, ?_, ?_, ?_⟩ <;>
    simp [StartrailProvider.Configure, ServiceResource.readRequest, postService,
      ServiceResource.deleteRequest, ServiceDataSource.readRequest, h]

/-- C10 witness: a configure with an empty tenant attribute yields tenant
`"default"` on the client and on every request, for two different resource
models. -/
theorem configure_tenant_default_witness :
    (StartrailProvider.Configure ⟨"", "", false, "key", "", "staging"⟩).tenant =
      "default" ∧
    (ServiceResource.readRequest
        (StartrailProvider.Configure ⟨"", "", false, "key", "", "staging"⟩)
        sampleModel).tenant = "default" ∧
    (postService (StartrailProvider.Configure ⟨"", "", false, "key", "", "staging"⟩)
        sampleModel).tenant = "default" ∧
    (ServiceResource.deleteRequest
        (StartrailProvider.Configure ⟨"", "", false, "key", "", "staging"⟩)
        sampleModel).tenant = "default" ∧
    (ServiceDataSource.readRequest
        (StartrailProvider.Configure ⟨"", "", false, "key", "", "staging"⟩)
        sampleModel).tenant = "default" ∧
    (ServiceResource.readRequest
        (StartrailProvider.Configure ⟨"", "", false, "key", "", "staging"⟩)
        sampleModel).tenant =
      (ServiceResource.readRequest
        (StartrailProvider.Configure ⟨"", "", false, "key", "", "staging"⟩)
        ServiceModel.empty).tenant :=
  configure_tenant_default ⟨"", "", false, "key", "", "staging"⟩ sampleModel
    ServiceModel.empty rfl

/-! ## C2: non-200 handling in the lifecycle -/

/-- C2: on a Create whose remote response carries status 500, the error is
reported, but `Create` still writes a state — the zero `ServiceModel{}` — to
Terraform state (the `resp.State.Set` call in `Create` is not guarded by
`HasError`, unlike `Update`). -/
theorem create_writes_state_on_non_200 :
    (ServiceResource.Create ⟨"acme", "staging"⟩ sampleModel
        (fun _ => ClientOutcome.completed
          (ServiceResponse.mk []
            ⟨"hello-world", "", "", "prod", "acme", none, [], none, [], []⟩)
          500 "internal error")).1 = some ServiceModel.empty ∧
    diagsHasError
      (ServiceResource.Create ⟨"acme", "staging"⟩ sampleModel
        (fun _ => ClientOutcome.completed
          (ServiceResponse.mk []
            ⟨"hello-world", "", "", "prod", "acme", none, [], none, [], []⟩)
          500 "internal error")).2 = true := by
  constructor
  · rfl
  · rfl

/-! ## Diagnostics lemmas -/

lemma errorsOf_append (a b : List TFDiag) :
    errorsOf (a ++ b) = errorsOf a ++ errorsOf b := by
  induction a with
  | nil => simp [errorsOf]
  | cons d rest ih =>
    cases d <;> simp [errorsOf, ih]

lemma warningsOf_append (a b : List TFDiag) :
    warningsOf (a ++ b) = warningsOf a ++ warningsOf b := by
  induction a with
  | nil => simp [warningsOf]
  | cons d rest ih =>
    cases d <;> simp [warningsOf, ih]

lemma isWarningSeverity_eq_false_of_isErrorSeverity (d : Diagnostic)
    (h : isErrorSeverity d = true) : isWarningSeverity d = false := by
  simp only [isErrorSeverity, Bool.or_eq_true, beq_iff_eq] at h
  rcases h with h | h <;> simp [isWarningSeverity, h]

lemma errorsOf_handleStartrailDiagnostics (ds : List Diagnostic) :
    ∀ acc : List TFDiag,
      errorsOf (handleStartrailDiagnostics ds acc) =
        errorsOf acc ++
          (ds.filter isErrorSeverity).map (fun d => (d.summary, d.detail)) := by
  induction ds with
  | nil => intro acc; simp [handleStartrailDiagnostics]
  | cons d rest ih =>
    intro acc
    by_cases h1 : isErrorSeverity d
    · simp [handleStartrailDiagnostics, h1, ih, errorsOf_append, errorsOf,
        List.filter_cons]
    · by_cases h2 : isWarningSeverity d <;>
        simp [handleStartrailDiagnostics, h1, h2, ih, errorsOf_append, errorsOf,
          List.filter_cons]

lemma warningsOf_handleStartrailDiagnostics (ds : List Diagnostic) :
    ∀ acc : List TFDiag,
      warningsOf (handleStartrailDiagnostics ds acc) =
        warningsOf acc ++
          (ds.filter isWarningSeverity).map (fun d => (d.summary, d.detail)) := by
  induction ds with
  | nil => intro acc; simp [handleStartrailDiagnostics]
  | cons d rest ih =>
    intro acc
    by_cases h1 : isErrorSeverity d
    · have h2 := isWarningSeverity_eq_false_of_isErrorSeverity d h1
      simp [handleStartrailDiagnostics, h1, h2, ih, warningsOf_append, warningsOf,
        List.filter_cons]
    · by_cases h2 : isWarningSeverity d <;>
        simp [handleStartrailDiagnostics, h1, h2, ih, warningsOf_append, warningsOf,
          List.filter_cons]

/-! ## C7: one error, one warning -/

/-- C7: for every remote diagnostics list holding exactly one error-severity
item `e` and exactly one warning-severity item `w`, the translation surfaces
exactly one blocking error carrying `e`'s summary and detail and exactly one
non-blocking warning carrying `w`'s summary and detail. -/
theorem handleStartrailDiagnostics_one_error_one_warning
    (ds : List Diagnostic) (e w : Diagnostic)
    (he : ds.filter isErrorSeverity = [e])
    (hw : ds.filter isWarningSeverity = [w]) :
    errorsOf (handleStartrailDiagnostics ds []) = [(e.summary, e.detail)] ∧
    warningsOf (handleStartrailDiagnostics ds []) = [(w.summary, w.detail)] := by
  constructor
  · simp [errorsOf_handleStartrailDiagnostics, he, errorsOf]
  · simp [warningsOf_handleStartrailDiagnostics, hw, warningsOf]

/-- C7 witness: a response with the error `(Bad, Detail1)` and the warning
`(Careful, Detail2)` yields exactly those two entries. -/
theorem handleStartrailDiagnostics_one_error_one_warning_witness :
    ([⟨"error", "Bad", "Detail1"⟩, ⟨"warning", "Careful", "Detail2"⟩] :
        List Diagnostic).filter isErrorSeverity = [⟨"error", "Bad", "Detail1"⟩] ∧
    ([⟨"error", "Bad", "Detail1"⟩, ⟨"warning", "Careful", "Detail2"⟩] :
        List Diagnostic).filter isWarningSeverity =
      [⟨"warning", "Careful", "Detail2"⟩] ∧
    errorsOf
      (handleStartrailDiagnostics
        [⟨"error", "Bad", "Detail1"⟩, ⟨"warning", "Careful", "Detail2"⟩] []) =
      [("Bad", "Detail1")] ∧
    warningsOf
      (handleStartrailDiagnostics
        [⟨"error", "Bad", "Detail1"⟩, ⟨"warning", "Careful", "Detail2"⟩] []) =
      [("Careful", "Detail2")] :=
  ⟨by decide, by decide,
    (handleStartrailDiagnostics_one_error_one_warning
      [⟨"error", "Bad", "Detail1"⟩, ⟨"warning", "Careful", "Detail2"⟩]
      ⟨"error", "Bad", "Detail1"⟩ ⟨"warning", "Careful", "Detail2"⟩
      (by decide) (by decide)).1,
    (handleStartrailDiagnostics_one_error_one_warning
      [⟨"error", "Bad", "Detail1"⟩, ⟨"warning", "Careful", "Detail2"⟩]
      ⟨"error", "Bad", "Detail1"⟩ ⟨"warning", "Careful", "Detail2"⟩
      (by decide) (by decide)).2⟩

/-! ## C9: unrecognized severities are dropped -/

/-- C9: a diagnostic whose severity is none of `error`, `Error`, `warning`,
`Warning` is silently dropped: removing it from the list anywhere leaves the
translation's output unchanged, whatever diagnostics were already
accumulated. -/
theorem handleStartrailDiagnostics_drops_unrecognized
    (pre tail : List Diagnostic) (d : Diagnostic) (acc : List TFDiag)
    (h1 : isErrorSeverity d = false) (h2 : isWarningSeverity d = false) :
    handleStartrailDiagnostics (pre ++ d :: tail) acc =
      handleStartrailDiagnostics (pre ++ tail) acc := by
  induction pre generalizing acc with
  | nil => simp [handleStartrailDiagnostics, h1, h2]
  | cons p rest ih =>
    by_cases hp1 : isErrorSeverity p
    · simp [handleStartrailDiagnostics, hp1, ih]
    · by_cases hp2 : isWarningSeverity p <;>
        simp [handleStartrailDiagnostics, hp1, hp2, ih]

/-- C9 witness: a diagnostic with severity `ERROR` (wrong casing) is
unrecognized and dropped from a list that also holds a recognized warning. -/
theorem handleStartrailDiagnostics_drops_unrecognized_witness :
    isErrorSeverity ⟨"ERROR", "Shout", "Loud"⟩ = false ∧
    isWarningSeverity ⟨"ERROR", "Shout", "Loud"⟩ = false ∧
    handleStartrailDiagnostics
        ([⟨"warning", "Careful", "D"⟩] ++ ⟨"ERROR", "Shout", "Loud"⟩ :: []) [] =
      handleStartrailDiagnostics ([⟨"warning", "Careful", "D"⟩] ++ []) [] :=
  ⟨by decide, by decide,
    handleStartrailDiagnostics_drops_unrecognized
      [⟨"warning", "Careful", "D"⟩] [] ⟨"ERROR", "Shout", "Loud"⟩ []
      (by decide) (by decide)⟩

/-! ## Association-list lemmas -/

lemma alistLookup_alistInsert {α : Type} (m : List (String × α)) (k : String)
    (v : α) (q : String) :
    alistLookup (alistInsert m k v) q =
      if q = k then some v else alistLookup m q := by
  induction m with
  | nil =>
    simp [alistInsert, alistLookup]
  | cons kv rest ih =>
    obtain ⟨k0, v0⟩ := kv
    by_cases hk : k0 = k
    · subst hk
      by_cases hq : q = k0 <;> simp [alistInsert, alistLookup, hq]
    · by_cases hq : q = k0
      · subst hq
        simp [alistInsert, alistLookup, hk, fun h : q = k => hk (h ▸ rfl)]
      · simp [alistInsert, alistLookup, hk, hq, ih]

lemma alistLookup_foldl_logging (entries : List ServiceResourceModelLogging) :
    ∀ (m : List (String × Logging)) (k : String),
      alistLookup
          (entries.foldl (fun m l => alistInsert m l.source (Logging.mk l.labels)) m)
          k =
        match lastLoggingBinding entries k with
        | some v => some v
        | none => alistLookup m k := by
  induction entries with
  | nil => intro m k; simp [lastLoggingBinding]
  | cons e rest ih =>
    intro m k
    simp only [List.foldl_cons, ih, lastLoggingBinding]
    cases hl : lastLoggingBinding rest k with
    | some v => simp
    | none =>
      rw [alistLookup_alistInsert]
      by_cases hk : e.source = k
      · simp [hk]
      · rw [if_neg (fun h : k = e.source => hk h.symm), if_neg hk]

lemma alistLookup_foldl_sources (entries : List ServiceResourceM0delSource) :
    ∀ (m : List (String × Source)) (k : String),
      alistLookup
          (entries.foldl (fun m s => alistInsert m s.source (Source.mk s.labels)) m)
          k =
        match lastSourceBinding entries k with
        | some v => some v
        | none => alistLookup m k := by
  induction entries with
  | nil => intro m k; simp [lastSourceBinding]
  | cons e rest ih =>
    intro m k
    simp only [List.foldl_cons, ih, lastSourceBinding]
    cases hl : lastSourceBinding rest k with
    | some v => simp
    | none =>
      rw [alistLookup_alistInsert]
      by_cases hk : e.source = k
      · simp [hk]
      · rw [if_neg (fun h : k = e.source => hk h.symm), if_neg hk]

/-! ## C6: last-write-wins on duplicate source keys -/

/-- C6: the to-domain conversion of the Logging and Source lists to maps is
last-write-wins: for every input list and every key, the resulting map binds
the key to the value of the last entry whose `source` equals it (and is
unbound when no entry bears it). -/
theorem buildMaps_last_write_wins
    (logEntries : List ServiceResourceModelLogging)
    (srcEntries : List ServiceResourceM0delSource) (k : String) :
    alistLookup (buildLoggingMap logEntries) k = lastLoggingBinding logEntries k ∧
    alistLookup (buildSourcesMap srcEntries) k = lastSourceBinding srcEntries k := by
  constructor
  · rw [buildLoggingMap, alistLookup_foldl_logging]
    cases lastLoggingBinding logEntries k <;> simp [alistLookup]
  · rw [buildSourcesMap, alistLookup_foldl_sources]
    cases lastSourceBinding srcEntries k <;> simp [alistLookup]

lemma alistKeys_alistInsert {α : Type} (m : List (String × α)) (k : String)
    (v : α) :
    alistKeys (alistInsert m k v) =
      if k ∈ alistKeys m then alistKeys m else alistKeys m ++ [k] := by
  induction m with
  | nil => simp [alistInsert, alistKeys]
  | cons kv rest ih =>
    obtain ⟨k0, v0⟩ := kv
    by_cases hk : k0 = k
    · subst hk
      simp [alistInsert, alistKeys]
    · have hne : ¬k = k0 := fun h => hk h.symm
      by_cases hmem : k ∈ alistKeys rest
      · simp only [alistInsert, if_neg hk, alistKeys, List.map_cons] at ih ⊢
        simp only [alistKeys] at hmem
        simp [ih, hmem, hne]
      · simp only [alistInsert, if_neg hk, alistKeys, List.map_cons] at ih ⊢
        simp only [alistKeys] at hmem
        simp [ih, hmem, hne]

lemma nodup_alistKeys_alistInsert {α : Type} (m : List (String × α))
    (k : String) (v : α) (h : (alistKeys m).Nodup) :
    (alistKeys (alistInsert m k v)).Nodup := by
  rw [alistKeys_alistInsert]
  by_cases hmem : k ∈ alistKeys m
  · simpa [hmem] using h
  · simp [hmem, List.nodup_append, h]

lemma nodup_alistKeys_buildLoggingMap (entries : List ServiceResourceModelLogging) :
    (alistKeys (buildLoggingMap entries)).Nodup := by
  rw [buildLoggingMap]
  suffices h : ∀ m : List (String × Logging), (alistKeys m).Nodup →
      (alistKeys
        (entries.foldl (fun m l => alistInsert m l.source (Logging.mk l.labels)) m)).Nodup by
    exact h [] (by simp [alistKeys])
  induction entries with
  | nil => intro m hm; simpa using hm
  | cons e rest ih =>
    intro m hm
    exact ih _ (nodup_alistKeys_alistInsert m e.source _ hm)

lemma nodup_alistKeys_buildSourcesMap (entries : List ServiceResourceM0delSource) :
    (alistKeys (buildSourcesMap entries)).Nodup := by
  rw [buildSourcesMap]
  suffices h : ∀ m : List (String × Source), (alistKeys m).Nodup →
      (alistKeys
        (entries.foldl (fun m s => alistInsert m s.source (Source.mk s.labels)) m)).Nodup by
    exact h [] (by simp [alistKeys])
  induction entries with
  | nil => intro m hm; simpa using hm
  | cons e rest ih =>
    intro m hm
    exact ih _ (nodup_alistKeys_alistInsert m e.source _ hm)

lemma alistInsert_of_not_mem {α : Type} (m : List (String × α)) (k : String)
    (v : α) (h : k ∉ alistKeys m) :
    alistInsert m k v = m ++ [(k, v)] := by
  induction m with
  | nil => simp [alistInsert]
  | cons kv rest ih =>
    obtain ⟨k0, v0⟩ := kv
    simp only [alistKeys, List.map_cons, List.mem_cons, not_or] at h
    obtain ⟨h1, h2⟩ := h
    have h0 : ¬k0 = k := fun he => h1 he.symm
    simp [alistInsert, h0, ih h2]

lemma insertAllPairs_append {α : Type} (M : List (String × α)) :
    ∀ m : List (String × α),
      (∀ k ∈ alistKeys M, k ∉ alistKeys m) → (alistKeys M).Nodup →
      insertAllPairs m M = m ++ M := by
  induction M with
  | nil => intro m _ _; simp [insertAllPairs]
  | cons kv M2 ih =>
    intro m hdisj hnd
    obtain ⟨k, v⟩ := kv
    have hkeys : alistKeys ((k, v) :: M2) = k :: alistKeys M2 := rfl
    rw [hkeys] at hdisj hnd
    have hk : k ∉ alistKeys m := hdisj k (List.mem_cons_self _ _)
    have hnd2 : (alistKeys M2).Nodup := (List.nodup_cons.mp hnd).2
    have hknotM2 : k ∉ alistKeys M2 := (List.nodup_cons.mp hnd).1
    have step : insertAllPairs m ((k, v) :: M2) =
        insertAllPairs (m ++ [(k, v)]) M2 := by
      simp [insertAllPairs, alistInsert_of_not_mem m k v hk]
    rw [step, ih (m ++ [(k, v)])]
    · simp
    · intro q hq
      have hqm : q ∉ alistKeys m := hdisj q (List.mem_cons_of_mem _ hq)
      have hqk : q ≠ k := fun he => hknotM2 (he ▸ hq)
      have happ : alistKeys (m ++ [(k, v)]) = alistKeys m ++ [k] := by
        simp [alistKeys]
      rw [happ]
      simp [hqm, hqk]
    · exact hnd2

lemma foldl_logging_of_pairs (M : List (String × Logging)) :
    ∀ m : List (String × Logging),
      ((M.map fun kv => ServiceResourceModelLogging.mk kv.2.labels kv.1).foldl
        (fun m l => alistInsert m l.source (Logging.mk l.labels)) m) =
        insertAllPairs m M := by
  induction M with
  | nil => intro m; simp [insertAllPairs]
  | cons kv M2 ih =>
    intro m
    simp only [List.map_cons, List.foldl_cons, insertAllPairs] at ih ⊢
    exact ih _

lemma foldl_sources_of_pairs (M : List (String × Source)) :
    ∀ m : List (String × Source),
      ((M.map fun kv => ServiceResourceM0delSource.mk kv.2.labels kv.1).foldl
        (fun m s => alistInsert m s.source (Source.mk s.labels)) m) =
        insertAllPairs m M := by
  induction M with
  | nil => intro m; simp [insertAllPairs]
  | cons kv M2 ih =>
    intro m
    simp only [List.map_cons, List.foldl_cons, insertAllPairs] at ih ⊢
    exact ih _

lemma buildLoggingMap_parse_roundtrip (entries : List ServiceResourceModelLogging) :
    buildLoggingMap
        ((buildLoggingMap entries).map fun kv =>
          ServiceResourceModelLogging.mk kv.2.labels kv.1) =
      buildLoggingMap entries := by
  have h1 := foldl_logging_of_pairs (buildLoggingMap entries) []
  have h2 := insertAllPairs_append (buildLoggingMap entries) []
    (by intro k _ hk; simp [alistKeys] at hk)
    (nodup_alistKeys_buildLoggingMap entries)
  calc buildLoggingMap
        ((buildLoggingMap entries).map fun kv =>
          ServiceResourceModelLogging.mk kv.2.labels kv.1)
      = insertAllPairs [] (buildLoggingMap entries) := h1
    _ = [] ++ buildLoggingMap entries := h2
    _ = buildLoggingMap entries := by simp

lemma buildSourcesMap_parse_roundtrip (entries : List ServiceResourceM0delSource) :
    buildSourcesMap
        ((buildSourcesMap entries).map fun kv =>
          ServiceResourceM0delSource.mk kv.2.labels kv.1) =
      buildSourcesMap entries := by
  have h1 := foldl_sources_of_pairs (buildSourcesMap entries) []
  have h2 := insertAllPairs_append (buildSourcesMap entries) []
    (by intro k _ hk; simp [alistKeys] at hk)
    (nodup_alistKeys_buildSourcesMap entries)
  calc buildSourcesMap
        ((buildSourcesMap entries).map fun kv =>
          ServiceResourceM0delSource.mk kv.2.labels kv.1)
      = insertAllPairs [] (buildSourcesMap entries) := h1
    _ = [] ++ buildSourcesMap entries := h2
    _ = buildSourcesMap entries := by simp

lemma access_map_roundtrip (l : List ServiceResourceModelAccess) :
    ((l.map fun a => Access.mk a.auth a.endpoint a.internal).map fun a =>
      ServiceResourceModelAccess.mk a.auth a.endpoint a.internal) = l := by
  induction l with
  | nil => simp
  | cons a rest ih => exact congrArg (List.cons a) ih

/-! ## C1: the round trip -/

/-- C1 counterexample: for the concrete valid attribute set `sampleModel`,
whose metadata block is present with labels, the composition of the to-domain
mapping with the from-domain mapping does not preserve metadata: the round
trip returns an absent metadata block. -/
theorem roundTrip_metadata_not_preserved :
    (roundTrip sampleClient sampleModel).metadata ≠ sampleModel.metadata := by
  decide

/-- C1 (amended): for every client and every schema-valid attribute set (the
`environment` attribute is non-empty), the round trip preserves name,
description, remarks, environment, disabled, the Access list exactly, and the
Logging and Source collections keyed by their `source` value; the identifier
carries the client tenant; but metadata is NOT preserved — the round trip
always returns an absent metadata block. -/
theorem roundTrip_identity_except_metadata (client : StartrailProviderClient)
    (data : ServiceModel) (h : data.environment ≠ "") :
    (roundTrip client data).name = data.name ∧
    (roundTrip client data).description = data.description ∧
    (roundTrip client data).remarks = data.remarks ∧
    (roundTrip client data).environment = data.environment ∧
    (roundTrip client data).disabled = data.disabled ∧
    (roundTrip client data).access = data.access ∧
    buildLoggingMap (roundTrip client data).logging = buildLoggingMap data.logging ∧
    buildSourcesMap (roundTrip client data).sources = buildSourcesMap data.sources ∧
    (roundTrip client data).id =
      client.tenant ++ "/" ++ data.environment ++ "/" ++ data.name ∧
    (roundTrip client data).metadata = none := by
  refine ⟨rfl, rfl, rfl, ?_, rfl, access_map_roundtrip data.access,
    buildLoggingMap_parse_roundtrip data.logging,
    buildSourcesMap_parse_roundtrip data.sources, ?_, rfl⟩
  · show resolveEnvironment client data.environment = data.environment
    simp [resolveEnvironment, h]
  · show client.tenant ++ "/" ++ resolveEnvironment client data.environment ++ "/" ++
        data.name =
      client.tenant ++ "/" ++ data.environment ++ "/" ++ data.name
    simp [resolveEnvironment, h]

/-- C1 witness: the amended round-trip identity at a concrete client and a
concrete valid attribute set with two logging entries, one source entry, one
access rule and a metadata block. -/
theorem roundTrip_identity_except_metadata_witness :
    (roundTrip sampleClient sampleModel).name = sampleModel.name ∧
    (roundTrip sampleClient sampleModel).description = sampleModel.description ∧
    (roundTrip sampleClient sampleModel).remarks = sampleModel.remarks ∧
    (roundTrip sampleClient sampleModel).environment = sampleModel.environment ∧
    (roundTrip sampleClient sampleModel).disabled = sampleModel.disabled ∧
    (roundTrip sampleClient sampleModel).access = sampleModel.access ∧
    buildLoggingMap (roundTrip sampleClient sampleModel).logging =
      buildLoggingMap sampleModel.logging ∧
    buildSourcesMap (roundTrip sampleClient sampleModel).sources =
      buildSourcesMap sampleModel.sources ∧
    (roundTrip sampleClient sampleModel).id =
      sampleClient.tenant ++ "/" ++ sampleModel.environment ++ "/" ++
        sampleModel.name ∧
    (roundTrip sampleClient sampleModel).metadata = none :=
  roundTrip_identity_except_metadata sampleClient sampleModel (by decide)

/-! ## Supporting facts for the non-200 analysis: Update and Read comply -/

lemma diagsHasError_append_error (l : List TFDiag) (s d : String) :
    diagsHasError (l ++ [TFDiag.error s d]) = true := by
  induction l with
  | nil => rfl
  | cons x rest ih => cases x <;> simp [diagsHasError, ih]

lemma update_writes_nothing_on_non_200 (client : StartrailProviderClient)
    (plan : ServiceModel) (resp : ServiceResponse) (status : Nat) (body : String)
    (h : status ≠ 200) :
    (ServiceResource.Update client plan
      (fun _ => ClientOutcome.completed resp status body)).1 = none := by
  simp only [ServiceResource.Update, ServiceResource.post]
  by_cases hd : diagsHasError (handleStartrailDiagnostics resp.diagnostics [])
  · simp [hd]
  · simp [hd, h, diagsHasError_append_error]

lemma read_writes_nothing_on_non_200 (client : StartrailProviderClient)
    (prior : ServiceModel) (resp : ServiceResponse) (status : Nat) (body : String)
    (h : status ≠ 200) :
    (ServiceResource.Read client prior
      (fun _ => ClientOutcome.completed resp status body)).1 = none := by
  simp only [ServiceResource.Read]
  by_cases hd : diagsHasError (handleStartrailDiagnostics resp.diagnostics [])
  · simp [hd]
  · simp [hd, h]
